import Mathlib

/-!
Shallow embedding of `tscinit` (`main.py`), a TypeScript project scaffolder.

The program resolves a target directory from an optional command-line
argument, ensures the directory exists, unconditionally writes
`package.json` and `tsconfig.json` into it, creates `src/` with starter
files `index.ts` and `module.ts` when they are absent, and prints a
summary.

Modelling choices:
* Paths are POSIX path strings; `isabs`, `join2`, `basename`, `dirname`
  model `os.path.isabs`, `os.path.join` (two arguments),
  `os.path.basename`, `os.path.dirname` from CPython's `posixpath`.
* The filesystem is an association list from path strings to entries
  (directory or file); the first matching key wins, and writes cons a new
  binding onto the front.  `""` and `"/"` always count as existing
  directories (the process's working directory and the root).
* File contents are either raw text or a structured JSON document
  (`json.dump` with `indent=2` is deterministic, so document equality is
  content equality).
* Fallible filesystem primitives return `Except FS FS`: an error carries
  the filesystem at the moment of failure, since a crashed run leaves its
  partial writes on disk.
* `main args cwd fs` takes `sys.argv[1:]`, the current working directory
  and the starting filesystem, and returns the final outcome paired with
  the list of printed lines.
-/

inductive JVal where
  | str (s : String)
  | bool (b : Bool)
  | arr (elems : List JVal)
  | obj (fields : List (String × JVal))

inductive Content where
  | json (v : JVal)
  | text (s : String)

inductive Entry where
  | dir
  | file (c : Content)

abbrev FS := List (String × Entry)

/-- Model of `s.startswith("/")`, via the character list. -/
def startsWithSlash (s : String) : Bool := s.data.head? == some '/'

/-- Model of `s.endswith("/")`, via the character list. -/
def endsWithSlash (s : String) : Bool := s.data.getLast? == some '/'

/-- Model of `posixpath.isabs`: a path is absolute iff it starts with `/`. -/
def isabs (p : String) : Bool := startsWithSlash p

/-- Model of `posixpath.join` restricted to two components, as the source uses it:
if `b` is absolute the result is `b`; otherwise `b` is appended to `a`,
inserting `/` unless `a` is empty or already ends with a separator. -/
def join2 (a b : String) : String :=
  if isabs b then b
  else if a = "" || endsWithSlash a then a ++ b
  else a ++ "/" ++ b

/-- Model of `posixpath.basename`: everything after the last `/` (empty when the
path ends with a separator). -/
def basename (p : String) : String :=
  String.mk ((p.data.reverse.takeWhile (fun c => c != '/')).reverse)

/-- Model of `posixpath.dirname`: everything up to the last `/`, with trailing
separators stripped unless the prefix consists only of separators. -/
def dirname (p : String) : String :=
  let head := p.data.reverse.dropWhile (fun c => c != '/')
  String.mk
    ((if head.any (fun c => c != '/') then head.dropWhile (fun c => c == '/')
      else head).reverse)

/-- Model of `os.path.exists` on the modelled filesystem. -/
def pexists (fs : FS) (p : String) : Bool :=
  p == "" || p == "/" || (List.lookup p fs).isSome

/-- Model of `os.path.isfile` on the modelled filesystem. -/
def isfile (fs : FS) (p : String) : Bool :=
  match List.lookup p fs with
  | some (Entry.file _) => true
  | _ => false

/-- Whether `p` names an existing directory (root and the empty relative path
always do). -/
def isDirFS (fs : FS) (p : String) : Bool :=
  p == "" || p == "/" ||
    (match List.lookup p fs with
     | some Entry.dir => true
     | _ => false)

/-- The chain `p`, `dirname p`, `dirname (dirname p)`, ... computed with
explicit fuel (`dirname` never lengthens a path, so `p.length` steps
suffice); stops at a fixpoint or at the empty prefix. -/
def dirChain : Nat → String → List String
  | 0, p => [p]
  | fuel + 1, p =>
    let d := dirname p
    if d = p || d = "" then [p] else p :: dirChain fuel d

/-- Model of `os.makedirs p`: fails when `p` or an ancestor is a regular file,
otherwise records directory entries for every missing prefix of `p`. -/
def makedirs (fs : FS) (p : String) : Except FS FS :=
  let chain := dirChain p.length p
  if chain.any (fun q => isfile fs q) then Except.error fs
  else
    Except.ok
      (((chain.filter (fun q => !(pexists fs q))).map
          (fun q => (q, Entry.dir))) ++ fs)

/-- Model of `open(p, "w")` followed by writing the full content: succeeds iff the
parent is an existing directory and `p` itself is not a directory, and
replaces whatever file was previously at `p`. -/
def writeFile (fs : FS) (p : String) (c : Content) : Except FS FS :=
  if isDirFS fs (dirname p) && !(isDirFS fs p) then
    Except.ok ((p, Entry.file c) :: fs)
  else Except.error fs

/-- The `package_data` dictionary of `generate_package_json`. -/
def packageData (project_path : String) : JVal :=
  JVal.obj
    [("name", JVal.str (basename project_path)),
     ("version", JVal.str "1.0.0"),
     ("main", JVal.str "index.js"),
     ("scripts", JVal.obj
        [("build", JVal.str "tsc"),
         ("start", JVal.str "node build/index.js"),
         ("build:start", JVal.str "npm run build && npm run start")]),
     ("devDependencies", JVal.obj [("typescript", JVal.str "latest")]),
     ("_moduleAliases", JVal.obj [("@", JVal.str "build")])]

/-- Translation of `generate_package_json`: serialize `package_data` over
`<target>/package.json`, overwriting any previous file. -/
def generate_package_json (fs : FS) (project_path : String) : Except FS FS :=
  let package_data := packageData project_path
  let package_json_path := join2 project_path "package.json"
  writeFile fs package_json_path (Content.json package_data)

/-- The `tsconfig_data` dictionary of `generate_tsconfig_json`. -/
def tsconfigData : JVal :=
  JVal.obj
    [("compilerOptions", JVal.obj
        [("target", JVal.str "ES2020"),
         ("module", JVal.str "commonjs"),
         ("outDir", JVal.str "./build"),
         ("rootDir", JVal.str "./src"),
         ("strict", JVal.bool true),
         ("esModuleInterop", JVal.bool true),
         ("skipLibCheck", JVal.bool true),
         ("forceConsistentCasingInFileNames", JVal.bool true),
         ("baseUrl", JVal.str "."),
         ("paths", JVal.obj
            [("@/*", JVal.arr [JVal.str "src/*"]),
             ("!/*", JVal.arr [JVal.str "./*"])])]),
     ("include", JVal.arr [JVal.str "src/**/*.ts"]),
     ("exclude", JVal.arr [JVal.str "node_modules"])]

/-- Translation of `generate_tsconfig_json`: serialize `tsconfig_data` over
`<target>/tsconfig.json`, overwriting any previous file. -/
def generate_tsconfig_json (fs : FS) (project_path : String) : Except FS FS :=
  let tsconfig_json_path := join2 project_path "tsconfig.json"
  writeFile fs tsconfig_json_path (Content.json tsconfigData)

/-- The literal body written to `src/index.ts` when it is absent. -/
def indexBody : String :=
  "import \x7b hello \x7d from \"./module\";\n\nhello();\n"

/-- The literal body written to `src/module.ts` when it is absent. -/
def moduleBody : String :=
  "export function hello() \x7b\n  console.log(\"Hello from a separate module!\");\n\x7d\n"

/-- Translation of `ensure_src_index_ts`: create `src/` when absent, then write each of
`index.ts` and `module.ts` exactly when it is not already a regular file
(two independent presence checks). -/
def ensure_src_index_ts (fs : FS) (project_path : String) : Except FS FS :=
  let src_path := join2 project_path "src"
  let index_path := join2 src_path "index.ts"
  match (if pexists fs src_path then Except.ok fs else makedirs fs src_path) with
  | Except.error f => Except.error f
  | Except.ok fs1 =>
    match (if isfile fs1 index_path then Except.ok fs1
           else writeFile fs1 index_path (Content.text indexBody)) with
    | Except.error f => Except.error f
    | Except.ok fs2 =>
      let module_path := join2 src_path "module.ts"
      if isfile fs2 module_path then Except.ok fs2
      else writeFile fs2 module_path (Content.text moduleBody)

/-- Target resolution of `main` (lines 99-107): first positional argument
used verbatim when absolute, joined to the working directory when
relative, and the working directory itself when no argument is given. -/
def resolveTarget (args : List String) (cwd : String) : String :=
  match args with
  | project_name :: _ =>
    if isabs project_name then project_name else join2 cwd project_name
  | [] => cwd

/-- The first line printed by `main`. -/
def headerLine (p : String) : String :=
  "Initializing TypeScript project in: " ++ p

/-- The summary printed by `main` after the three generation steps. -/
def reportLines (p : String) : List String :=
  ["Success! The following files have been created/updated:",
   "  - " ++ join2 p "package.json",
   "  - " ++ join2 p "tsconfig.json",
   "  - " ++ join2 p "src/index.ts",
   "\nNext steps:",
   "  1. cd into your project directory.",
   "  2. Run `npm install` to install local dev dependencies (TypeScript).",
   "  3. Run `npm run build` to compile TypeScript => JavaScript in build/.",
   "  4. Run `npm run start` to execute the compiled JS from build/.",
   "\nNow your ESM imports in the compiled code will have \x27.js\x27 appended automatically!"]

namespace Tscinit

/-- Translation of `main`: resolve the target, create it when absent, write the two
configuration files, ensure the starter sources, and report.  The second
component is the list of printed lines; any error aborts the remaining
steps and is returned with the filesystem as it stood. -/
def main (args : List String) (cwd : String) (fs : FS) :
    Except FS FS × List String :=
  let project_path := resolveTarget args cwd
  match (if pexists fs project_path then Except.ok fs
         else makedirs fs project_path) with
  | Except.error f => (Except.error f, [])
  | Except.ok fs1 =>
    match generate_package_json fs1 project_path with
    | Except.error f => (Except.error f, [headerLine project_path])
    | Except.ok fs2 =>
      match generate_tsconfig_json fs2 project_path with
      | Except.error f => (Except.error f, [headerLine project_path])
      | Except.ok fs3 =>
        match ensure_src_index_ts fs3 project_path with
        | Except.error f => (Except.error f, [headerLine project_path])
        | Except.ok fs4 =>
          (Except.ok fs4, headerLine project_path :: reportLines project_path)

end Tscinit

/-- The prefix `join2 t s` puts in front of a relative `s`: `t` itself
when `t` is empty or ends with a separator, otherwise `t ++ "/"`. -/
def joinPrefix (t : String) : String :=
  if t = "" || endsWithSlash t then t else t ++ "/"

/-- Path of the manifest below target `t`. -/
def pkgPath (t : String) : String := join2 t "package.json"

/-- Path of the compiler configuration below target `t`. -/
def cfgPath (t : String) : String := join2 t "tsconfig.json"

/-- Path of the source subdirectory below target `t`. -/
def srcPath (t : String) : String := join2 t "src"

/-- Path of the starter entry file below target `t`. -/
def idxPath (t : String) : String := join2 (srcPath t) "index.ts"

/-- Path of the starter module file below target `t`. -/
def modPath (t : String) : String := join2 (srcPath t) "module.ts"

/-- The `name` field of a manifest document, when the document is a JSON
object. -/
def nameField (v : JVal) : Option JVal :=
  match v with
  | JVal.obj fields => List.lookup "name" fields
  | _ => none

/-- The `name` field of the JSON manifest stored at `<t>/package.json`,
when present. -/
def manifestName (fs : FS) (t : String) : Option JVal :=
  match List.lookup (pkgPath t) fs with
  | some (Entry.file (Content.json doc)) => nameField doc
  | _ => none

section Lemmas

/-- Two strings with a common prefix and different suffixes differ. -/
theorem append_right_ne (x : String) {a b : String} (h : a ≠ b) :
    x ++ a ≠ x ++ b := by
  intro he
  apply h
  apply String.ext
  have hd := congrArg String.data he
  rw [String.data_append, String.data_append] at hd
  exact List.append_cancel_left hd

/-- String length of an append. -/
theorem str_length_append (a b : String) :
    (a ++ b).length = a.length + b.length := by
  show (a ++ b).data.length = a.data.length + b.data.length
  rw [String.data_append, List.length_append]

/-- Strings of different lengths differ. -/
theorem ne_of_length_ne {a b : String} (h : a.length ≠ b.length) : a ≠ b := by
  intro he; exact h (by rw [he])

theorem lookup_cons_ne {k' k : String} {v : Entry} {fs : FS} (h : k' ≠ k) :
    List.lookup k ((k', v) :: fs) = List.lookup k fs := by
  simp [List.lookup, beq_eq_false_iff_ne.mpr (Ne.symm h)]

theorem lookup_cons_self {k : String} {v : Entry} {fs : FS} :
    List.lookup k ((k, v) :: fs) = some v := by
  simp [List.lookup]

theorem lookup_append_of_forall_ne {l : List (String × Entry)} {fs : FS}
    {k : String} (h : ∀ q ∈ l, q.1 ≠ k) :
    List.lookup k (l ++ fs) = List.lookup k fs := by
  induction l with
  | nil => rfl
  | cons e l ih =>
    rw [List.cons_append]
    obtain ⟨k', v⟩ := e
    rw [lookup_cons_ne (h ⟨k', v⟩ (List.mem_cons_self _ _))]
    exact ih fun q hq => h q (List.mem_cons_of_mem _ hq)

theorem lookup_isSome_cons {fs : FS} {k : String} (e : String × Entry)
    (h : (List.lookup k fs).isSome = true) :
    (List.lookup k (e :: fs)).isSome = true := by
  obtain ⟨k', v⟩ := e
  by_cases hk : k' = k
  · subst hk; rw [lookup_cons_self]; rfl
  · rw [lookup_cons_ne hk]; exact h

theorem pexists_cons {fs : FS} {k : String} (e : String × Entry)
    (h : pexists fs k = true) : pexists (e :: fs) k = true := by
  simp only [pexists, Bool.or_eq_true, beq_iff_eq] at h ⊢
  rcases h with (h | h) | h
  · exact Or.inl (Or.inl h)
  · exact Or.inl (Or.inr h)
  · exact Or.inr (lookup_isSome_cons e h)

theorem pexists_append {fs : FS} {k : String} (l : List (String × Entry))
    (h : pexists fs k = true) : pexists (l ++ fs) k = true := by
  induction l with
  | nil => exact h
  | cons e l ih => exact pexists_cons e ih

theorem isfile_cons_ne {k' k : String} {v : Entry} {fs : FS} (h : k' ≠ k) :
    isfile ((k', v) :: fs) k = isfile fs k := by
  simp only [isfile, lookup_cons_ne h]

theorem isDirFS_cons_ne {k' k : String} {v : Entry} {fs : FS} (h : k' ≠ k) :
    isDirFS ((k', v) :: fs) k = isDirFS fs k := by
  simp only [isDirFS, lookup_cons_ne h]

theorem isDirFS_cons_dir {fs : FS} {k : String} (k' : String)
    (h : isDirFS fs k = true) : isDirFS ((k', Entry.dir) :: fs) k = true := by
  by_cases hk : k' = k
  · subst hk; simp [isDirFS, lookup_cons_self]
  · rw [isDirFS_cons_ne hk]; exact h

theorem isDirFS_append_dirs {l : List (String × Entry)} {fs : FS} {k : String}
    (hdir : ∀ q ∈ l, q.2 = Entry.dir) (h : isDirFS fs k = true) :
    isDirFS (l ++ fs) k = true := by
  induction l with
  | nil => exact h
  | cons e l ih =>
    rw [List.cons_append]
    obtain ⟨k', v⟩ := e
    have hv : v = Entry.dir := hdir ⟨k', v⟩ (List.mem_cons_self _ _)
    subst hv
    exact isDirFS_cons_dir k' (ih fun q hq => hdir q (List.mem_cons_of_mem _ hq))

theorem isDirFS_of_lookup_file {fs : FS} {k : String} {c : Content}
    (h : List.lookup k fs = some (Entry.file c))
    (h0 : k ≠ "") (h1 : k ≠ "/") : isDirFS fs k = false := by
  simp only [isDirFS, h, beq_eq_false_iff_ne.mpr h0, beq_eq_false_iff_ne.mpr h1,
    Bool.false_or]

theorem isfile_of_lookup_file {fs : FS} {k : String} {c : Content}
    (h : List.lookup k fs = some (Entry.file c)) : isfile fs k = true := by
  simp [isfile, h]

theorem isfile_append_dirs {l : List (String × Entry)} {fs : FS} {k : String}
    (hdir : ∀ q ∈ l, q.2 = Entry.dir)
    (hnone : ∀ q ∈ l, List.lookup q.1 fs = none) :
    isfile (l ++ fs) k = isfile fs k := by
  induction l with
  | nil => rfl
  | cons e l ih =>
    rw [List.cons_append]
    obtain ⟨k', v⟩ := e
    have hv : v = Entry.dir := hdir ⟨k', v⟩ (List.mem_cons_self _ _)
    subst hv
    have ih' := ih (fun q hq => hdir q (List.mem_cons_of_mem _ hq))
      (fun q hq => hnone q (List.mem_cons_of_mem _ hq))
    by_cases hk : k' = k
    · subst hk
      have h0 : List.lookup k' fs = none :=
        hnone ⟨k', Entry.dir⟩ (List.mem_cons_self _ _)
      simp [isfile, lookup_cons_self, h0]
    · rw [isfile_cons_ne hk]; exact ih'

end Lemmas

section PathLemmas

theorem str_mk_data (s : String) : String.mk s.data = s := rfl

theorem dropWhile_append_of_forall {α : Type} {p : α → Bool} {l₁ l₂ : List α}
    (h : ∀ a ∈ l₁, p a = true) :
    List.dropWhile p (l₁ ++ l₂) = List.dropWhile p l₂ := by
  induction l₁ with
  | nil => rfl
  | cons a l ih =>
    rw [List.cons_append]
    simp only [List.dropWhile, h a (List.mem_cons_self _ _)]
    exact ih fun b hb => h b (List.mem_cons_of_mem _ hb)

theorem length_dropWhile_le {α : Type} (p : α → Bool) (l : List α) :
    (List.dropWhile p l).length ≤ l.length := by
  induction l with
  | nil => simp [List.dropWhile]
  | cons a l ih =>
    simp only [List.dropWhile]
    cases p a with
    | true => exact Nat.le_trans ih (Nat.le_succ _)
    | false => exact Nat.le_refl _

/-- Appending a separator-free component does not change the directory
part. -/
theorem dirname_append_noslash (x : String) {s : String}
    (hs : ∀ c ∈ s.data, (c != '/') = true) :
    dirname (x ++ s) = dirname x := by
  simp only [dirname]
  have h1 : (x ++ s).data.reverse.dropWhile (fun c => c != '/') =
      x.data.reverse.dropWhile (fun c => c != '/') := by
    rw [String.data_append, List.reverse_append]
    exact dropWhile_append_of_forall fun a ha => hs a (List.mem_reverse.mp ha)
  rw [h1]

/-- For a path ending in a non-separator, appending one separator makes a
path whose directory part is the original path. -/
theorem dirname_append_slash {y : String} {c : Char}
    (hc : y.data.getLast? = some c) (hne : (c != '/') = true) :
    dirname (y ++ "/") = y := by
  simp only [dirname]
  have hrev : (y ++ "/").data.reverse = '/' :: y.data.reverse := by
    rw [String.data_append, List.reverse_append]; rfl
  rw [hrev]
  have h1 : List.dropWhile (fun c => c != '/') ('/' :: y.data.reverse) =
      '/' :: y.data.reverse := by
    simp [List.dropWhile]
  rw [h1]
  have hmemc : c ∈ y.data.reverse := by
    rw [List.mem_reverse]
    exact List.mem_of_mem_getLast? hc
  have hany : (('/' : Char) :: y.data.reverse).any (fun c => c != '/') = true := by
    refine List.any_eq_true.mpr ⟨c, List.mem_cons_of_mem _ hmemc, hne⟩
  rw [if_pos hany]
  have hbeq : (c == '/') = false := by
    cases hcc : (c == '/') with
    | false => rfl
    | true => rw [bne, hcc] at hne; exact absurd hne (by decide)
  have h2 : List.dropWhile (fun c => c == '/') ('/' :: y.data.reverse) =
      y.data.reverse := by
    have hstep : List.dropWhile (fun c => c == '/') ('/' :: y.data.reverse) =
        List.dropWhile (fun c => c == '/') y.data.reverse := by
      simp [List.dropWhile]
    rw [hstep]
    cases hrev2 : y.data.reverse with
    | nil => rfl
    | cons a l =>
      have ha : (a :: l).head? = some c := by
        rw [← hrev2, List.head?_reverse]
        exact hc
      have ha2 : a = c := by simpa using ha
      subst ha2
      simp [List.dropWhile, hbeq]
  rw [h2, List.reverse_reverse]

theorem dirname_length_le (p : String) : (dirname p).length ≤ p.length := by
  simp only [dirname]
  show (List.reverse _).length ≤ p.length
  rw [List.length_reverse]
  have h1 : (p.data.reverse.dropWhile (fun c => c != '/')).length ≤
      p.data.length := by
    calc (p.data.reverse.dropWhile (fun c => c != '/')).length
        ≤ p.data.reverse.length := length_dropWhile_le _ _
      _ = p.data.length := List.length_reverse _
  split
  · exact Nat.le_trans (length_dropWhile_le _ _) h1
  · exact h1

theorem mem_dirChain_length_le :
    ∀ (fuel : Nat) (p q : String), q ∈ dirChain fuel p → q.length ≤ p.length := by
  intro fuel
  induction fuel with
  | zero =>
    intro p q hq
    simp only [dirChain, List.mem_singleton] at hq
    exact hq ▸ Nat.le_refl _
  | succ n ih =>
    intro p q hq
    simp only [dirChain] at hq
    split at hq
    · simp only [List.mem_singleton] at hq
      exact hq ▸ Nat.le_refl _
    · rcases List.mem_cons.mp hq with hq | hq
      · exact hq ▸ Nat.le_refl _
      · exact Nat.le_trans (ih _ _ hq) (dirname_length_le p)

theorem dirChain_head_cons (fuel : Nat) (p : String) :
    ∃ rest, dirChain fuel p = p :: rest := by
  cases fuel with
  | zero => exact ⟨[], rfl⟩
  | succ n =>
    simp only [dirChain]
    split
    · exact ⟨[], rfl⟩
    · exact ⟨_, rfl⟩

end PathLemmas

section MakedirsLemmas

/-- Successful `makedirs` prepends a block of directory entries for
previously-missing prefixes of `p`, all no longer than `p`. -/
theorem makedirs_ok_entries {fs : FS} {p : String} {fs' : FS}
    (h : makedirs fs p = Except.ok fs') :
    ∃ l, fs' = l ++ fs ∧ (∀ q ∈ l, q.2 = Entry.dir) ∧
      (∀ q ∈ l, List.lookup q.1 fs = none) ∧
      (∀ q ∈ l, q.1.length ≤ p.length) := by
  simp only [makedirs] at h
  split at h
  · exact absurd h (by simp)
  · injection h with h
    refine ⟨_, h.symm, ?_, ?_, ?_⟩
    · intro q hq
      rcases List.mem_map.mp hq with ⟨a, _, ha2⟩
      rw [← ha2]
    · intro q hq
      rcases List.mem_map.mp hq with ⟨a, ha1, ha2⟩
      have hpe : pexists fs a = false := by
        have := (List.mem_filter.mp ha1).2
        cases hb : pexists fs a
        · rfl
        · rw [hb] at this; exact absurd this (by decide)
      rw [← ha2]
      simp only []
      cases hl : List.lookup a fs with
      | none => rfl
      | some v =>
        exfalso
        simp only [pexists, hl, Option.isSome_some, Bool.or_true] at hpe
        exact absurd hpe (by decide)
    · intro q hq
      rcases List.mem_map.mp hq with ⟨a, ha1, ha2⟩
      have ha : a ∈ dirChain p.length p := List.mem_of_mem_filter ha1
      rw [← ha2]
      exact mem_dirChain_length_le _ _ _ ha

theorem lookup_isSome_of_mem_keys {l : List (String × Entry)} {fs : FS}
    {k : String} (h : ∃ v, (k, v) ∈ l) :
    (List.lookup k (l ++ fs)).isSome = true := by
  induction l with
  | nil => rcases h with ⟨v, hv⟩; exact absurd hv (List.not_mem_nil _)
  | cons e l ih =>
    obtain ⟨k', v'⟩ := e
    rcases h with ⟨v, hv⟩
    rcases List.mem_cons.mp hv with hv | hv
    · have hk : k' = k := by injection hv with h1 _; exact h1.symm
      subst hk
      rw [List.cons_append, lookup_cons_self]; rfl
    · by_cases hk : k' = k
      · subst hk; rw [List.cons_append, lookup_cons_self]; rfl
      · rw [List.cons_append, lookup_cons_ne hk]
        exact ih ⟨v, hv⟩

theorem makedirs_ok_pexists {fs : FS} {p : String} {fs' : FS}
    (h : makedirs fs p = Except.ok fs') : pexists fs' p = true := by
  cases hpe : pexists fs p with
  | true =>
    obtain ⟨l, hl, -, -, -⟩ := makedirs_ok_entries h
    rw [hl]; exact pexists_append l hpe
  | false =>
    simp only [makedirs] at h
    split at h
    · exact absurd h (by simp)
    · injection h with h
      obtain ⟨rest, hrest⟩ := dirChain_head_cons p.length p
      have hmem : (p, Entry.dir) ∈
          (List.filter (fun q => !(pexists fs q)) (dirChain p.length p)).map
            (fun q => (q, Entry.dir)) := by
        refine List.mem_map.mpr ⟨p, ?_, rfl⟩
        refine List.mem_filter.mpr ⟨?_, by rw [hpe]; rfl⟩
        rw [hrest]; exact List.mem_cons_self _ _
      rw [← h]
      simp only [pexists, Bool.or_eq_true]
      exact Or.inr (lookup_isSome_of_mem_keys ⟨Entry.dir, hmem⟩)

theorem makedirs_ok_lookup_long {fs : FS} {p : String} {fs' : FS}
    (h : makedirs fs p = Except.ok fs') {k : String} (hk : p.length < k.length) :
    List.lookup k fs' = List.lookup k fs := by
  obtain ⟨l, hl, -, -, hlen⟩ := makedirs_ok_entries h
  rw [hl]
  refine lookup_append_of_forall_ne fun q hq => ?_
  exact ne_of_length_ne (Nat.ne_of_lt (Nat.lt_of_le_of_lt (hlen q hq) hk))

theorem makedirs_ok_isfile_eq {fs : FS} {p : String} {fs' : FS}
    (h : makedirs fs p = Except.ok fs') (k : String) :
    isfile fs' k = isfile fs k := by
  obtain ⟨l, hl, hdir, hnone, -⟩ := makedirs_ok_entries h
  rw [hl]
  exact isfile_append_dirs hdir hnone

theorem makedirs_ok_isDir {fs : FS} {p : String} {fs' : FS}
    (h : makedirs fs p = Except.ok fs') {k : String}
    (hk : isDirFS fs k = true) : isDirFS fs' k = true := by
  obtain ⟨l, hl, hdir, -, -⟩ := makedirs_ok_entries h
  rw [hl]
  exact isDirFS_append_dirs hdir hk

end MakedirsLemmas

section WriteFileLemmas

theorem writeFile_ok_elim {fs : FS} {p : String} {c : Content} {fs' : FS}
    (h : writeFile fs p c = Except.ok fs') :
    isDirFS fs (dirname p) = true ∧ isDirFS fs p = false ∧
      fs' = (p, Entry.file c) :: fs := by
  unfold writeFile at h
  split at h
  case isTrue hcond =>
    injection h with h
    have hcond' : isDirFS fs (dirname p) = true ∧ (!isDirFS fs p) = true := by
      simpa using hcond
    refine ⟨hcond'.1, ?_, h.symm⟩
    have h2 := hcond'.2
    cases hb : isDirFS fs p
    · rfl
    · rw [hb] at h2; exact absurd h2 (by decide)
  case isFalse => exact absurd h (by simp)

theorem writeFile_ok_intro {fs : FS} {p : String} (c : Content)
    (h1 : isDirFS fs (dirname p) = true) (h2 : isDirFS fs p = false) :
    writeFile fs p c = Except.ok ((p, Entry.file c) :: fs) := by
  unfold writeFile
  rw [if_pos]
  rw [h1, h2]; rfl

theorem writeFile_err_of_parent {fs : FS} {p : String} (c : Content)
    (h : isDirFS fs (dirname p) = false) :
    writeFile fs p c = Except.error fs := by
  unfold writeFile
  rw [if_neg]
  rw [h]; simp

end WriteFileLemmas

section PathShapes

theorem str_append_assoc (a b c : String) : (a ++ b) ++ c = a ++ (b ++ c) := by
  apply String.ext
  simp only [String.data_append, List.append_assoc]

theorem join2_rel (t : String) {s : String} (h : isabs s = false) :
    join2 t s = joinPrefix t ++ s := by
  simp only [join2, joinPrefix, h, Bool.false_eq_true, if_false]
  cases hcond : (decide (t = "") || endsWithSlash t) with
  | true => simp [hcond]
  | false => simp [hcond]

theorem pkgPath_eq (t : String) :
    pkgPath t = joinPrefix t ++ "package.json" := join2_rel t rfl

theorem cfgPath_eq (t : String) :
    cfgPath t = joinPrefix t ++ "tsconfig.json" := join2_rel t rfl

theorem srcPath_eq (t : String) :
    srcPath t = joinPrefix t ++ "src" := join2_rel t rfl

theorem getLast?_append_str (x : String) {s : String} (hs : s.data ≠ []) :
    (x ++ s).data.getLast? = s.data.getLast? := by
  rw [String.data_append]
  exact List.getLast?_append_of_ne_nil _ hs

theorem append_ne_short (x : String) {s : String} (h : 2 ≤ s.length) :
    x ++ s ≠ "" ∧ x ++ s ≠ "/" := by
  have hl := str_length_append x s
  constructor
  · apply ne_of_length_ne
    rw [hl]
    show _ ≠ 0
    omega
  · apply ne_of_length_ne
    rw [hl]
    show _ ≠ 1
    omega

theorem srcPath_cond_false (t : String) :
    ((joinPrefix t ++ "src") = "" || endsWithSlash (joinPrefix t ++ "src")) = false := by
  have h1 : joinPrefix t ++ "src" ≠ "" := (append_ne_short _ (by decide)).1
  have h2 : endsWithSlash (joinPrefix t ++ "src") = false := by
    unfold endsWithSlash
    rw [getLast?_append_str _ (by decide)]
    decide
  simp [h1, h2]

theorem idxPath_eq (t : String) :
    idxPath t = (srcPath t ++ "/") ++ "index.ts" := by
  show join2 (srcPath t) "index.ts" = _
  simp only [join2, srcPath_eq]
  rw [if_neg (by decide : ¬(isabs "index.ts" = true))]
  rw [if_neg (by rw [srcPath_cond_false t]; exact Bool.false_ne_true)]

theorem modPath_eq (t : String) :
    modPath t = (srcPath t ++ "/") ++ "module.ts" := by
  show join2 (srcPath t) "module.ts" = _
  simp only [join2, srcPath_eq]
  rw [if_neg (by decide : ¬(isabs "module.ts" = true))]
  rw [if_neg (by rw [srcPath_cond_false t]; exact Bool.false_ne_true)]

theorem idxPath_eq' (t : String) :
    idxPath t = joinPrefix t ++ "src/index.ts" := by
  rw [idxPath_eq, srcPath_eq, str_append_assoc, str_append_assoc]
  exact congrArg (fun z => joinPrefix t ++ z) rfl

theorem modPath_eq' (t : String) :
    modPath t = joinPrefix t ++ "src/module.ts" := by
  rw [modPath_eq, srcPath_eq, str_append_assoc, str_append_assoc]
  exact congrArg (fun z => joinPrefix t ++ z) rfl

theorem dirname_pkgPath (t : String) :
    dirname (pkgPath t) = dirname (joinPrefix t) := by
  rw [pkgPath_eq]
  exact dirname_append_noslash _ (by decide)

theorem dirname_cfgPath (t : String) :
    dirname (cfgPath t) = dirname (joinPrefix t) := by
  rw [cfgPath_eq]
  exact dirname_append_noslash _ (by decide)

theorem getLast?_srcPath (t : String) :
    (srcPath t).data.getLast? = some 'c' := by
  rw [srcPath_eq, getLast?_append_str _ (by decide)]
  rfl

theorem dirname_idxPath (t : String) :
    dirname (idxPath t) = srcPath t := by
  rw [idxPath_eq]
  rw [dirname_append_noslash _ (by decide)]
  exact dirname_append_slash (getLast?_srcPath t) (by decide)

theorem dirname_modPath (t : String) :
    dirname (modPath t) = srcPath t := by
  rw [modPath_eq]
  rw [dirname_append_noslash _ (by decide)]
  exact dirname_append_slash (getLast?_srcPath t) (by decide)

theorem path_ne (t : String) {a b : String} (h : a ≠ b) :
    joinPrefix t ++ a ≠ joinPrefix t ++ b := append_right_ne _ h

theorem joinPrefix_len_ge (t : String) : t.length ≤ (joinPrefix t).length := by
  unfold joinPrefix
  split
  · exact Nat.le_refl _
  · rw [str_length_append]
    exact Nat.le_add_right _ _

theorem len_lt_append (t : String) {s : String} (h : 1 ≤ s.length) :
    t.length < (joinPrefix t ++ s).length := by
  have h1 := joinPrefix_len_ge t
  rw [str_length_append]
  omega

theorem len_src_lt_idx (t : String) :
    (srcPath t).length < (idxPath t).length := by
  rw [srcPath_eq, idxPath_eq', str_length_append, str_length_append]
  have h1 : ("src" : String).length = 3 := rfl
  have h2 : ("src/index.ts" : String).length = 12 := rfl
  omega

theorem len_src_lt_mod (t : String) :
    (srcPath t).length < (modPath t).length := by
  rw [srcPath_eq, modPath_eq', str_length_append, str_length_append]
  have h1 : ("src" : String).length = 3 := rfl
  have h2 : ("src/module.ts" : String).length = 13 := rfl
  omega

theorem len_dirname_lt (t : String) {s : String} (h : 1 ≤ s.length) :
    (dirname (joinPrefix t)).length < (joinPrefix t ++ s).length := by
  have h1 := dirname_length_le (joinPrefix t)
  rw [str_length_append]
  omega

end PathShapes

section RunDecomposition

theorem gen_pkg_eq (fs : FS) (t : String) :
    generate_package_json fs t =
      writeFile fs (pkgPath t) (Content.json (packageData t)) := rfl

theorem gen_cfg_eq (fs : FS) (t : String) :
    generate_tsconfig_json fs t =
      writeFile fs (cfgPath t) (Content.json tsconfigData) := rfl

theorem srcPath_def (t : String) : join2 t "src" = srcPath t := rfl

theorem idxPath_def (t : String) :
    join2 (srcPath t) "index.ts" = idxPath t := rfl

theorem modPath_def (t : String) :
    join2 (srcPath t) "module.ts" = modPath t := rfl

theorem main_ok_cases {args : List String} {cwd : String} {fs fs' : FS}
    (h : (Tscinit.main args cwd fs).1 = Except.ok fs') :
    ∃ fs1 fs2 fs3,
      (if pexists fs (resolveTarget args cwd) then Except.ok fs
       else makedirs fs (resolveTarget args cwd)) = Except.ok fs1 ∧
      generate_package_json fs1 (resolveTarget args cwd) = Except.ok fs2 ∧
      generate_tsconfig_json fs2 (resolveTarget args cwd) = Except.ok fs3 ∧
      ensure_src_index_ts fs3 (resolveTarget args cwd) = Except.ok fs' := by
  cases h1 : (if pexists fs (resolveTarget args cwd) then Except.ok fs
      else makedirs fs (resolveTarget args cwd)) with
  | error f => simp only [Tscinit.main, h1] at h; exact Except.noConfusion h
  | ok fs1 =>
    simp only [Tscinit.main, h1] at h
    cases h2 : generate_package_json fs1 (resolveTarget args cwd) with
    | error f => simp only [h2] at h; exact Except.noConfusion h
    | ok fs2 =>
      simp only [h2] at h
      cases h3 : generate_tsconfig_json fs2 (resolveTarget args cwd) with
      | error f => simp only [h3] at h; exact Except.noConfusion h
      | ok fs3 =>
        simp only [h3] at h
        cases h4 : ensure_src_index_ts fs3 (resolveTarget args cwd) with
        | error f => simp only [h4] at h; exact Except.noConfusion h
        | ok fs4 =>
          simp only [h4] at h
          injection h with h
          exact ⟨fs1, fs2, fs3, rfl, h2, h3, h ▸ h4⟩

theorem ensure_ok_cases {fs : FS} {t : String} {fs' : FS}
    (h : ensure_src_index_ts fs t = Except.ok fs') :
    ∃ fsa fsb,
      (if pexists fs (srcPath t) then Except.ok fs
       else makedirs fs (srcPath t)) = Except.ok fsa ∧
      (if isfile fsa (idxPath t) then Except.ok fsa
       else writeFile fsa (idxPath t) (Content.text indexBody)) = Except.ok fsb ∧
      (if isfile fsb (modPath t) then Except.ok fsb
       else writeFile fsb (modPath t) (Content.text moduleBody)) = Except.ok fs' := by
  cases h1 : (if pexists fs (srcPath t) then Except.ok fs
      else makedirs fs (srcPath t)) with
  | error f =>
    simp only [ensure_src_index_ts, srcPath_def, idxPath_def, modPath_def, h1] at h
    exact Except.noConfusion h
  | ok fsa =>
    simp only [ensure_src_index_ts, srcPath_def, idxPath_def, modPath_def, h1] at h
    cases h2 : (if isfile fsa (idxPath t) then Except.ok fsa
        else writeFile fsa (idxPath t) (Content.text indexBody)) with
    | error f => simp only [h2] at h; exact Except.noConfusion h
    | ok fsb =>
      simp only [h2] at h
      exact ⟨fsa, fsb, rfl, h2, h⟩

end RunDecomposition

section MainOkState

/-- State of the filesystem after a successful run: the two configuration
files hold exactly the generated documents, the starter files are
preserved when they were regular files and created with the fixed bodies
otherwise, and the resulting filesystem satisfies every precondition a
following run needs. -/
theorem main_ok_state {args : List String} {cwd : String} {fs fs' : FS}
    {t : String} (ht : t = resolveTarget args cwd)
    (h : (Tscinit.main args cwd fs).1 = Except.ok fs') :
    List.lookup (pkgPath t) fs' =
      some (Entry.file (Content.json (packageData t))) ∧
    List.lookup (cfgPath t) fs' =
      some (Entry.file (Content.json tsconfigData)) ∧
    (isfile fs (idxPath t) = true →
      List.lookup (idxPath t) fs' = List.lookup (idxPath t) fs) ∧
    (isfile fs (idxPath t) = false →
      List.lookup (idxPath t) fs' =
        some (Entry.file (Content.text indexBody))) ∧
    (isfile fs (modPath t) = true →
      List.lookup (modPath t) fs' = List.lookup (modPath t) fs) ∧
    (isfile fs (modPath t) = false →
      List.lookup (modPath t) fs' =
        some (Entry.file (Content.text moduleBody))) ∧
    pexists fs' t = true ∧
    isDirFS fs' (dirname (pkgPath t)) = true ∧
    pexists fs' (srcPath t) = true ∧
    isfile fs' (idxPath t) = true ∧
    isfile fs' (modPath t) = true := by
  obtain ⟨fs1, fs2, fs3, h1, h2, h3, h4⟩ := main_ok_cases h
  rw [← ht] at h1 h2 h3 h4
  -- key disequalities among the five generated paths
  have hPC : pkgPath t ≠ cfgPath t := by
    rw [pkgPath_eq, cfgPath_eq]; exact path_ne t (by decide)
  have hPI : pkgPath t ≠ idxPath t := by
    rw [pkgPath_eq, idxPath_eq']; exact path_ne t (by decide)
  have hPM : pkgPath t ≠ modPath t := by
    rw [pkgPath_eq, modPath_eq']; exact path_ne t (by decide)
  have hCI : cfgPath t ≠ idxPath t := by
    rw [cfgPath_eq, idxPath_eq']; exact path_ne t (by decide)
  have hCM : cfgPath t ≠ modPath t := by
    rw [cfgPath_eq, modPath_eq']; exact path_ne t (by decide)
  have hIM : idxPath t ≠ modPath t := by
    rw [idxPath_eq', modPath_eq']; exact path_ne t (by decide)
  -- length bookkeeping
  have eS : (srcPath t).length = (joinPrefix t).length + 3 := by
    rw [srcPath_eq, str_length_append]; rfl
  have eP : (pkgPath t).length = (joinPrefix t).length + 12 := by
    rw [pkgPath_eq, str_length_append]; rfl
  have eC : (cfgPath t).length = (joinPrefix t).length + 13 := by
    rw [cfgPath_eq, str_length_append]; rfl
  have eI : (idxPath t).length = (joinPrefix t).length + 12 := by
    rw [idxPath_eq', str_length_append]; rfl
  have eM : (modPath t).length = (joinPrefix t).length + 13 := by
    rw [modPath_eq', str_length_append]; rfl
  have hjp := joinPrefix_len_ge t
  have hdlen : (dirname (pkgPath t)).length ≤ (joinPrefix t).length := by
    rw [dirname_pkgPath]; exact dirname_length_le _
  have hLtI : t.length < (idxPath t).length := by omega
  have hLtM : t.length < (modPath t).length := by omega
  have hLSP : (srcPath t).length < (pkgPath t).length := by omega
  have hLSC : (srcPath t).length < (cfgPath t).length := by omega
  have hLSI : (srcPath t).length < (idxPath t).length := by omega
  have hLSM : (srcPath t).length < (modPath t).length := by omega
  have hdP : dirname (pkgPath t) ≠ pkgPath t := ne_of_length_ne (by omega)
  have hdC : dirname (pkgPath t) ≠ cfgPath t := ne_of_length_ne (by omega)
  have hdI : dirname (pkgPath t) ≠ idxPath t := ne_of_length_ne (by omega)
  have hdM : dirname (pkgPath t) ≠ modPath t := ne_of_length_ne (by omega)
  -- phase 1: target creation
  have F1 : (∀ k : String, t.length < k.length →
        List.lookup k fs1 = List.lookup k fs) ∧
      (∀ k, isfile fs1 k = isfile fs k) ∧ pexists fs1 t = true := by
    by_cases hpe : pexists fs t = true
    · rw [if_pos hpe] at h1
      injection h1 with h1
      subst h1
      exact ⟨fun _ _ => rfl, fun _ => rfl, hpe⟩
    · rw [if_neg hpe] at h1
      exact ⟨fun k hk => makedirs_ok_lookup_long h1 hk,
        makedirs_ok_isfile_eq h1, makedirs_ok_pexists h1⟩
  obtain ⟨F1look, F1file, F1pex⟩ := F1
  -- phase 2: the two configuration writes
  rw [gen_pkg_eq] at h2
  obtain ⟨hp1, hp2, hfs2⟩ := writeFile_ok_elim h2
  rw [gen_cfg_eq] at h3
  obtain ⟨hc1, hc2, hfs3⟩ := writeFile_ok_elim h3
  have hlook3 : ∀ k : String, k ≠ cfgPath t → k ≠ pkgPath t →
      List.lookup k fs3 = List.lookup k fs1 := by
    intro k hkc hkp
    rw [hfs3, lookup_cons_ne (Ne.symm hkc), hfs2, lookup_cons_ne (Ne.symm hkp)]
  have hisfile3 : ∀ k : String, k ≠ cfgPath t → k ≠ pkgPath t →
      isfile fs3 k = isfile fs1 k := by
    intro k hkc hkp
    rw [hfs3, isfile_cons_ne (Ne.symm hkc), hfs2, isfile_cons_ne (Ne.symm hkp)]
  have hisdir3 : ∀ k : String, k ≠ cfgPath t → k ≠ pkgPath t →
      isDirFS fs3 k = isDirFS fs1 k := by
    intro k hkc hkp
    rw [hfs3, isDirFS_cons_ne (Ne.symm hkc), hfs2, isDirFS_cons_ne (Ne.symm hkp)]
  have hpex3 : ∀ k : String, pexists fs1 k = true → pexists fs3 k = true := by
    intro k hh
    rw [hfs3, hfs2]
    exact pexists_cons _ (pexists_cons _ hh)
  have hlookup3P : List.lookup (pkgPath t) fs3 =
      some (Entry.file (Content.json (packageData t))) := by
    rw [hfs3, lookup_cons_ne (Ne.symm hPC), hfs2, lookup_cons_self]
  have hlookup3C : List.lookup (cfgPath t) fs3 =
      some (Entry.file (Content.json tsconfigData)) := by
    rw [hfs3, lookup_cons_self]
  -- phase 3a: source directory creation
  obtain ⟨fsa, fsb, e1, e2, e3⟩ := ensure_ok_cases h4
  have EA : (∀ k : String, (srcPath t).length < k.length →
        List.lookup k fsa = List.lookup k fs3) ∧
      (∀ k, isfile fsa k = isfile fs3 k) ∧
      pexists fsa (srcPath t) = true ∧
      (∀ k, isDirFS fs3 k = true → isDirFS fsa k = true) ∧
      (∀ k, pexists fs3 k = true → pexists fsa k = true) := by
    by_cases hpe : pexists fs3 (srcPath t) = true
    · rw [if_pos hpe] at e1
      injection e1 with e1
      subst e1
      exact ⟨fun _ _ => rfl, fun _ => rfl, hpe, fun _ hh => hh, fun _ hh => hh⟩
    · rw [if_neg hpe] at e1
      refine ⟨fun k hk => makedirs_ok_lookup_long e1 hk,
        makedirs_ok_isfile_eq e1, makedirs_ok_pexists e1,
        fun k hh => makedirs_ok_isDir e1 hh, fun k hh => ?_⟩
      obtain ⟨l, hl, -, -, -⟩ := makedirs_ok_entries e1
      rw [hl]
      exact pexists_append l hh
  obtain ⟨EAlook, EAfile, EApex, EAdir, EApexmono⟩ := EA
  -- phase 3b: the entry starter file
  have EB : (∀ k : String, k ≠ idxPath t →
        List.lookup k fsb = List.lookup k fsa) ∧
      isfile fsb (idxPath t) = true ∧
      (isfile fsa (idxPath t) = true →
        List.lookup (idxPath t) fsb = List.lookup (idxPath t) fsa) ∧
      (isfile fsa (idxPath t) = false →
        List.lookup (idxPath t) fsb =
          some (Entry.file (Content.text indexBody))) ∧
      (∀ k, k ≠ idxPath t → isDirFS fsb k = isDirFS fsa k) ∧
      (∀ k, pexists fsa k = true → pexists fsb k = true) ∧
      (∀ k, k ≠ idxPath t → isfile fsb k = isfile fsa k) := by
    by_cases hidx : isfile fsa (idxPath t) = true
    · rw [if_pos hidx] at e2
      injection e2 with e2
      subst e2
      refine ⟨fun _ _ => rfl, hidx, fun _ => rfl, fun hcon => ?_,
        fun _ _ => rfl, fun _ hh => hh, fun _ _ => rfl⟩
      rw [hidx] at hcon
      exact Bool.noConfusion hcon
    · rw [if_neg hidx] at e2
      obtain ⟨hi1, hi2, hfsb⟩ := writeFile_ok_elim e2
      refine ⟨fun k hk => ?_, ?_, fun hcon => ?_, fun _ => ?_,
        fun k hk => ?_, fun k hh => ?_, fun k hk => ?_⟩
      · rw [hfsb, lookup_cons_ne (Ne.symm hk)]
      · rw [hfsb]
        exact isfile_of_lookup_file lookup_cons_self
      · exact absurd hcon hidx
      · rw [hfsb, lookup_cons_self]
      · rw [hfsb, isDirFS_cons_ne (Ne.symm hk)]
      · rw [hfsb]
        exact pexists_cons _ hh
      · rw [hfsb, isfile_cons_ne (Ne.symm hk)]
  obtain ⟨EBlook, EBidx, EBkeep, EBwrite, EBdir, EBpex, EBfile⟩ := EB
  -- phase 3c: the module starter file
  have EC : (∀ k : String, k ≠ modPath t →
        List.lookup k fs' = List.lookup k fsb) ∧
      isfile fs' (modPath t) = true ∧
      (isfile fsb (modPath t) = true →
        List.lookup (modPath t) fs' = List.lookup (modPath t) fsb) ∧
      (isfile fsb (modPath t) = false →
        List.lookup (modPath t) fs' =
          some (Entry.file (Content.text moduleBody))) ∧
      (∀ k, k ≠ modPath t → isDirFS fs' k = isDirFS fsb k) ∧
      (∀ k, pexists fsb k = true → pexists fs' k = true) ∧
      (∀ k, k ≠ modPath t → isfile fs' k = isfile fsb k) := by
    by_cases hmod : isfile fsb (modPath t) = true
    · rw [if_pos hmod] at e3
      injection e3 with e3
      subst e3
      refine ⟨fun _ _ => rfl, hmod, fun _ => rfl, fun hcon => ?_,
        fun _ _ => rfl, fun _ hh => hh, fun _ _ => rfl⟩
      rw [hmod] at hcon
      exact Bool.noConfusion hcon
    · rw [if_neg hmod] at e3
      obtain ⟨hm1, hm2, hfse⟩ := writeFile_ok_elim e3
      refine ⟨fun k hk => ?_, ?_, fun hcon => ?_, fun _ => ?_,
        fun k hk => ?_, fun k hh => ?_, fun k hk => ?_⟩
      · rw [hfse, lookup_cons_ne (Ne.symm hk)]
      · rw [hfse]
        exact isfile_of_lookup_file lookup_cons_self
      · exact absurd hcon hmod
      · rw [hfse, lookup_cons_self]
      · rw [hfse, isDirFS_cons_ne (Ne.symm hk)]
      · rw [hfse]
        exact pexists_cons _ hh
      · rw [hfse, isfile_cons_ne (Ne.symm hk)]
  obtain ⟨EClook, ECmod, ECkeep, ECwrite, ECdir, ECpex, ECfile⟩ := EC
  -- isfile transfer for the two starter files
  have hfileIa : isfile fsa (idxPath t) = isfile fs (idxPath t) := by
    rw [EAfile, hisfile3 _ (Ne.symm hCI) (Ne.symm hPI), F1file]
  have hfileMb : isfile fsb (modPath t) = isfile fs (modPath t) := by
    rw [EBfile _ (Ne.symm hIM), EAfile, hisfile3 _ (Ne.symm hCM) (Ne.symm hPM),
      F1file]
  refine ⟨?_, ?_, ?_, ?_, ?_, ?_, ?_, ?_, ?_, ?_, ?_⟩
  · rw [EClook _ hPM, EBlook _ hPI, EAlook _ hLSP, hlookup3P]
  · rw [EClook _ hCM, EBlook _ hCI, EAlook _ hLSC, hlookup3C]
  · intro hf
    have hIa : isfile fsa (idxPath t) = true := by rw [hfileIa, hf]
    rw [EClook _ hIM, EBkeep hIa, EAlook _ hLSI,
      hlook3 _ (Ne.symm hCI) (Ne.symm hPI), F1look _ hLtI]
  · intro hf
    have hIa : isfile fsa (idxPath t) = false := by rw [hfileIa, hf]
    rw [EClook _ hIM, EBwrite hIa]
  · intro hf
    have hMb : isfile fsb (modPath t) = true := by rw [hfileMb, hf]
    rw [ECkeep hMb, EBlook _ (Ne.symm hIM), EAlook _ hLSM,
      hlook3 _ (Ne.symm hCM) (Ne.symm hPM), F1look _ hLtM]
  · intro hf
    have hMb : isfile fsb (modPath t) = false := by rw [hfileMb, hf]
    rw [ECwrite hMb]
  · exact ECpex _ (EBpex _ (EApexmono _ (hpex3 _ F1pex)))
  · have hd3 : isDirFS fs3 (dirname (pkgPath t)) = true := by
      rw [hisdir3 _ hdC hdP]
      exact hp1
    rw [ECdir _ hdM, EBdir _ hdI]
    exact EAdir _ hd3
  · exact ECpex _ (EBpex _ EApex)
  · rw [ECfile _ hIM]
    exact EBidx
  · exact ECmod

end MainOkState

section PathNeLemmas

theorem pkg_ne_cfg (t : String) : pkgPath t ≠ cfgPath t := by
  rw [pkgPath_eq, cfgPath_eq]; exact path_ne t (by decide)

theorem pkg_ne_idx (t : String) : pkgPath t ≠ idxPath t := by
  rw [pkgPath_eq, idxPath_eq']; exact path_ne t (by decide)

theorem pkg_ne_mod (t : String) : pkgPath t ≠ modPath t := by
  rw [pkgPath_eq, modPath_eq']; exact path_ne t (by decide)

theorem cfg_ne_idx (t : String) : cfgPath t ≠ idxPath t := by
  rw [cfgPath_eq, idxPath_eq']; exact path_ne t (by decide)

theorem cfg_ne_mod (t : String) : cfgPath t ≠ modPath t := by
  rw [cfgPath_eq, modPath_eq']; exact path_ne t (by decide)

theorem idx_ne_mod (t : String) : idxPath t ≠ modPath t := by
  rw [idxPath_eq', modPath_eq']; exact path_ne t (by decide)

theorem pkg_ne_empty (t : String) : pkgPath t ≠ "" := by
  rw [pkgPath_eq]; exact (append_ne_short _ (by decide)).1

theorem pkg_ne_root (t : String) : pkgPath t ≠ "/" := by
  rw [pkgPath_eq]; exact (append_ne_short _ (by decide)).2

theorem cfg_ne_empty (t : String) : cfgPath t ≠ "" := by
  rw [cfgPath_eq]; exact (append_ne_short _ (by decide)).1

theorem cfg_ne_root (t : String) : cfgPath t ≠ "/" := by
  rw [cfgPath_eq]; exact (append_ne_short _ (by decide)).2

theorem src_ne_empty (t : String) : srcPath t ≠ "" := by
  rw [srcPath_eq]; exact (append_ne_short _ (by decide)).1

theorem src_ne_root (t : String) : srcPath t ≠ "/" := by
  rw [srcPath_eq]; exact (append_ne_short _ (by decide)).2

theorem dP_ne_pkg (t : String) : dirname (pkgPath t) ≠ pkgPath t := by
  apply ne_of_length_ne
  have h1 : (dirname (pkgPath t)).length ≤ (joinPrefix t).length := by
    rw [dirname_pkgPath]; exact dirname_length_le _
  have h2 : (pkgPath t).length = (joinPrefix t).length + 12 := by
    rw [pkgPath_eq, str_length_append]; rfl
  omega

theorem dP_ne_cfg (t : String) : dirname (pkgPath t) ≠ cfgPath t := by
  apply ne_of_length_ne
  have h1 : (dirname (pkgPath t)).length ≤ (joinPrefix t).length := by
    rw [dirname_pkgPath]; exact dirname_length_le _
  have h2 : (cfgPath t).length = (joinPrefix t).length + 13 := by
    rw [cfgPath_eq, str_length_append]; rfl
  omega

end PathNeLemmas

section MainOkAgain

/-- A successful run leaves the filesystem ready for an identical second
run, which succeeds and merely re-writes the two configuration files. -/
theorem main_ok_again {args : List String} {cwd : String} {fs fs' : FS}
    {t : String} (ht : t = resolveTarget args cwd)
    (h : (Tscinit.main args cwd fs).1 = Except.ok fs') :
    (Tscinit.main args cwd fs').1 =
      Except.ok ((cfgPath t, Entry.file (Content.json tsconfigData)) ::
        (pkgPath t, Entry.file (Content.json (packageData t))) :: fs') := by
  obtain ⟨hP, hC, -, -, -, -, h7, h8, h9, h10, h11⟩ := main_ok_state ht h
  subst ht
  set t := resolveTarget args cwd with ht
  have s1 : (if pexists fs' t then Except.ok fs' else makedirs fs' t) =
      Except.ok fs' := by rw [if_pos h7]
  have hNP2 : isDirFS fs' (pkgPath t) = false :=
    isDirFS_of_lookup_file hP (pkg_ne_empty t) (pkg_ne_root t)
  have s2 : generate_package_json fs' t =
      Except.ok ((pkgPath t, Entry.file (Content.json (packageData t))) :: fs') := by
    rw [gen_pkg_eq]
    exact writeFile_ok_intro _ h8 hNP2
  have h8' : isDirFS ((pkgPath t, Entry.file (Content.json (packageData t))) :: fs')
      (dirname (cfgPath t)) = true := by
    rw [dirname_cfgPath, ← dirname_pkgPath,
      isDirFS_cons_ne (Ne.symm (dP_ne_pkg t))]
    exact h8
  have hNC2 : isDirFS ((pkgPath t, Entry.file (Content.json (packageData t))) :: fs')
      (cfgPath t) = false := by
    rw [isDirFS_cons_ne (pkg_ne_cfg t)]
    exact isDirFS_of_lookup_file hC (cfg_ne_empty t) (cfg_ne_root t)
  have s3 : generate_tsconfig_json
      ((pkgPath t, Entry.file (Content.json (packageData t))) :: fs') t =
      Except.ok ((cfgPath t, Entry.file (Content.json tsconfigData)) ::
        (pkgPath t, Entry.file (Content.json (packageData t))) :: fs') := by
    rw [gen_cfg_eq]
    exact writeFile_ok_intro _ h8' hNC2
  have hpexS : pexists ((cfgPath t, Entry.file (Content.json tsconfigData)) ::
      (pkgPath t, Entry.file (Content.json (packageData t))) :: fs')
      (srcPath t) = true :=
    pexists_cons _ (pexists_cons _ h9)
  have hfI : isfile ((cfgPath t, Entry.file (Content.json tsconfigData)) ::
      (pkgPath t, Entry.file (Content.json (packageData t))) :: fs')
      (idxPath t) = true := by
    rw [isfile_cons_ne (cfg_ne_idx t), isfile_cons_ne (pkg_ne_idx t)]
    exact h10
  have hfM : isfile ((cfgPath t, Entry.file (Content.json tsconfigData)) ::
      (pkgPath t, Entry.file (Content.json (packageData t))) :: fs')
      (modPath t) = true := by
    rw [isfile_cons_ne (cfg_ne_mod t), isfile_cons_ne (pkg_ne_mod t)]
    exact h11
  have s4 : ensure_src_index_ts
      ((cfgPath t, Entry.file (Content.json tsconfigData)) ::
        (pkgPath t, Entry.file (Content.json (packageData t))) :: fs') t =
      Except.ok ((cfgPath t, Entry.file (Content.json tsconfigData)) ::
        (pkgPath t, Entry.file (Content.json (packageData t))) :: fs') := by
    simp [ensure_src_index_ts, srcPath_def, idxPath_def, modPath_def,
      hpexS, hfI, hfM]
  simp only [Tscinit.main, ← ht, s1, s2, s3, s4]

end MainOkAgain

section ErrorPaths

theorem pkg_ne_src (t : String) : pkgPath t ≠ srcPath t := by
  rw [pkgPath_eq, srcPath_eq]; exact path_ne t (by decide)

theorem cfg_ne_src (t : String) : cfgPath t ≠ srcPath t := by
  rw [cfgPath_eq, srcPath_eq]; exact path_ne t (by decide)

/-- A failure of the directory-creation step aborts the run before
anything is printed. -/
theorem main_err_mkdir {args : List String} {cwd : String} {fs f : FS}
    {t : String} (ht : t = resolveTarget args cwd)
    (h1 : (if pexists fs t then Except.ok fs else makedirs fs t) =
      Except.error f) :
    Tscinit.main args cwd fs = (Except.error f, []) := by
  subst ht
  simp only [Tscinit.main, h1]

/-- A failure of the manifest write aborts the run right after the header
line is printed. -/
theorem main_err_pkg {args : List String} {cwd : String} {fs fs1 f : FS}
    {t : String} (ht : t = resolveTarget args cwd)
    (h1 : (if pexists fs t then Except.ok fs else makedirs fs t) =
      Except.ok fs1)
    (h2 : generate_package_json fs1 t = Except.error f) :
    Tscinit.main args cwd fs = (Except.error f, [headerLine t]) := by
  subst ht
  simp only [Tscinit.main, h1, h2]

/-- A failure of the compiler-configuration write aborts the run, leaving
whatever the failing primitive left behind. -/
theorem main_err_cfg {args : List String} {cwd : String} {fs fs1 fs2 f : FS}
    {t : String} (ht : t = resolveTarget args cwd)
    (h1 : (if pexists fs t then Except.ok fs else makedirs fs t) =
      Except.ok fs1)
    (h2 : generate_package_json fs1 t = Except.ok fs2)
    (h3 : generate_tsconfig_json fs2 t = Except.error f) :
    Tscinit.main args cwd fs = (Except.error f, [headerLine t]) := by
  subst ht
  simp only [Tscinit.main, h1, h2, h3]

/-- A failure inside the starter-source step aborts the run after both
configuration files were already written. -/
theorem main_err_ensure {args : List String} {cwd : String}
    {fs fs1 fs2 fs3 f : FS} {t : String} (ht : t = resolveTarget args cwd)
    (h1 : (if pexists fs t then Except.ok fs else makedirs fs t) =
      Except.ok fs1)
    (h2 : generate_package_json fs1 t = Except.ok fs2)
    (h3 : generate_tsconfig_json fs2 t = Except.ok fs3)
    (h4 : ensure_src_index_ts fs3 t = Except.error f) :
    Tscinit.main args cwd fs = (Except.error f, [headerLine t]) := by
  subst ht
  simp only [Tscinit.main, h1, h2, h3, h4]

/-- Whatever goes wrong inside the starter-source step, the error payload
still holds every binding of paths other than the two starter files that
are longer than the source directory path. -/
theorem ensure_err_lookup {fs : FS} {t : String} {f : FS}
    (h : ensure_src_index_ts fs t = Except.error f) :
    ∀ k : String, k ≠ idxPath t → (srcPath t).length < k.length →
      List.lookup k f = List.lookup k fs := by
  intro k hki hkl
  cases h1 : (if pexists fs (srcPath t) then Except.ok fs
      else makedirs fs (srcPath t)) with
  | error g =>
    have hg : g = fs := by
      by_cases hpe : pexists fs (srcPath t) = true
      · rw [if_pos hpe] at h1; exact absurd h1 (by simp)
      · rw [if_neg hpe] at h1
        simp only [makedirs] at h1
        split at h1
        · injection h1 with h1; exact h1.symm
        · exact absurd h1 (by simp)
    simp only [ensure_src_index_ts, srcPath_def, idxPath_def, modPath_def,
      h1] at h
    injection h with h
    rw [← h, hg]
  | ok fsa =>
    have hfa : List.lookup k fsa = List.lookup k fs := by
      by_cases hpe : pexists fs (srcPath t) = true
      · rw [if_pos hpe] at h1; injection h1 with h1; rw [← h1]
      · rw [if_neg hpe] at h1; exact makedirs_ok_lookup_long h1 hkl
    simp only [ensure_src_index_ts, srcPath_def, idxPath_def, modPath_def,
      h1] at h
    cases h2 : (if isfile fsa (idxPath t) then Except.ok fsa
        else writeFile fsa (idxPath t) (Content.text indexBody)) with
    | error g =>
      have hg : g = fsa := by
        by_cases hif : isfile fsa (idxPath t) = true
        · rw [if_pos hif] at h2; exact absurd h2 (by simp)
        · rw [if_neg hif] at h2
          unfold writeFile at h2
          split at h2
          · exact absurd h2 (by simp)
          · injection h2 with h2; exact h2.symm
      simp only [h2] at h
      injection h with h
      rw [← h, hg, hfa]
    | ok fsb =>
      have hfb : List.lookup k fsb = List.lookup k fsa := by
        by_cases hif : isfile fsa (idxPath t) = true
        · rw [if_pos hif] at h2; injection h2 with h2; rw [← h2]
        · rw [if_neg hif] at h2
          obtain ⟨-, -, hfsb⟩ := writeFile_ok_elim h2
          rw [hfsb, lookup_cons_ne (Ne.symm hki)]
      simp only [h2] at h
      cases h3 : (if isfile fsb (modPath t) then Except.ok fsb
          else writeFile fsb (modPath t) (Content.text moduleBody)) with
      | error g =>
        have hg : g = fsb := by
          by_cases hif : isfile fsb (modPath t) = true
          · rw [if_pos hif] at h3; exact absurd h3 (by simp)
          · rw [if_neg hif] at h3
            unfold writeFile at h3
            split at h3
            · exact absurd h3 (by simp)
            · injection h3 with h3; exact h3.symm
        simp only [h3] at h
        injection h with h
        rw [← h, hg, hfb, hfa]
      | ok fsc =>
        simp only [h3] at h
        exact Except.noConfusion h

/-- When the source subdirectory path is occupied by a regular file and
the entry starter file is not a regular file, the starter step fails while
opening the entry file, leaving the filesystem untouched. -/
theorem ensure_err_src_file {fs : FS} {t : String} {c : Content}
    (hS : List.lookup (srcPath t) fs = some (Entry.file c))
    (hI : isfile fs (idxPath t) = false) :
    ensure_src_index_ts fs t = Except.error fs := by
  have hpex : pexists fs (srcPath t) = true := by
    simp [pexists, hS]
  have hdir : isDirFS fs (dirname (idxPath t)) = false := by
    rw [dirname_idxPath]
    exact isDirFS_of_lookup_file hS (src_ne_empty t) (src_ne_root t)
  have hw : writeFile fs (idxPath t) (Content.text indexBody) =
      Except.error fs := writeFile_err_of_parent _ hdir
  simp [ensure_src_index_ts, srcPath_def, idxPath_def, modPath_def,
    hpex, hI, hw]

end ErrorPaths

section Claims

/-- C1: for every run that completes successfully, the `name` field of the
manifest written to `<target>/package.json` equals the final path segment
of the resolved target directory (`basename`, the possibly-empty text
after the last separator), for runs with and without an argument alike. -/
theorem claim_C1 (args : List String) (cwd : String) (fs fs' : FS)
    {t : String} (ht : t = resolveTarget args cwd)
    (h : (Tscinit.main args cwd fs).1 = Except.ok fs') :
    manifestName fs' t = some (JVal.str (basename t)) := by
  have hP := (main_ok_state ht h).1
  unfold manifestName
  rw [hP]
  rfl

theorem claim_C1_witness :
    manifestName
      [("/work/myapp/src/module.ts", Entry.file (Content.text moduleBody)),
       ("/work/myapp/src/index.ts", Entry.file (Content.text indexBody)),
       ("/work/myapp/src", Entry.dir),
       ("/work/myapp/tsconfig.json", Entry.file (Content.json tsconfigData)),
       ("/work/myapp/package.json",
         Entry.file (Content.json (packageData "/work/myapp"))),
       ("/work/myapp", Entry.dir),
       ("/work", Entry.dir)] "/work/myapp" = some (JVal.str "myapp") :=
  claim_C1 ["myapp"] "/work" [("/work", Entry.dir)] _ rfl (by rfl)

/-- C2: a successful run leaves `<target>/package.json` and
`<target>/tsconfig.json` holding exactly the two generated documents with
the field sets of spec section 6, independent of any prior content, and an
immediately repeated run succeeds and leaves both files with identical
content. -/
theorem claim_C2 (args : List String) (cwd : String) (fs fs' : FS)
    {t : String} (ht : t = resolveTarget args cwd)
    (h : (Tscinit.main args cwd fs).1 = Except.ok fs') :
    List.lookup (pkgPath t) fs' =
      some (Entry.file (Content.json (JVal.obj
        [("name", JVal.str (basename t)),
         ("version", JVal.str "1.0.0"),
         ("main", JVal.str "index.js"),
         ("scripts", JVal.obj
            [("build", JVal.str "tsc"),
             ("start", JVal.str "node build/index.js"),
             ("build:start", JVal.str "npm run build && npm run start")]),
         ("devDependencies", JVal.obj [("typescript", JVal.str "latest")]),
         ("_moduleAliases", JVal.obj [("@", JVal.str "build")])]))) ∧
    List.lookup (cfgPath t) fs' =
      some (Entry.file (Content.json (JVal.obj
        [("compilerOptions", JVal.obj
            [("target", JVal.str "ES2020"),
             ("module", JVal.str "commonjs"),
             ("outDir", JVal.str "./build"),
             ("rootDir", JVal.str "./src"),
             ("strict", JVal.bool true),
             ("esModuleInterop", JVal.bool true),
             ("skipLibCheck", JVal.bool true),
             ("forceConsistentCasingInFileNames", JVal.bool true),
             ("baseUrl", JVal.str "."),
             ("paths", JVal.obj
                [("@/*", JVal.arr [JVal.str "src/*"]),
                 ("!/*", JVal.arr [JVal.str "./*"])])]),
         ("include", JVal.arr [JVal.str "src/**/*.ts"]),
         ("exclude", JVal.arr [JVal.str "node_modules"])]))) ∧
    (Tscinit.main args cwd fs').1 =
      Except.ok ((cfgPath t, Entry.file (Content.json tsconfigData)) ::
        (pkgPath t, Entry.file (Content.json (packageData t))) :: fs') ∧
    List.lookup (pkgPath t)
        ((cfgPath t, Entry.file (Content.json tsconfigData)) ::
          (pkgPath t, Entry.file (Content.json (packageData t))) :: fs') =
      List.lookup (pkgPath t) fs' ∧
    List.lookup (cfgPath t)
        ((cfgPath t, Entry.file (Content.json tsconfigData)) ::
          (pkgPath t, Entry.file (Content.json (packageData t))) :: fs') =
      List.lookup (cfgPath t) fs' := by
  obtain ⟨hP, hC, -, -, -, -, -, -, -, -, -⟩ := main_ok_state ht h
  refine ⟨hP, hC, main_ok_again ht h, ?_, ?_⟩
  · rw [lookup_cons_ne (Ne.symm (pkg_ne_cfg t)), lookup_cons_self, hP]
  · rw [lookup_cons_self, hC]

theorem claim_C2_witness :
    List.lookup (pkgPath "/work/myapp")
      [("/work/myapp/src/module.ts", Entry.file (Content.text moduleBody)),
       ("/work/myapp/src/index.ts", Entry.file (Content.text indexBody)),
       ("/work/myapp/src", Entry.dir),
       ("/work/myapp/tsconfig.json", Entry.file (Content.json tsconfigData)),
       ("/work/myapp/package.json",
         Entry.file (Content.json (packageData "/work/myapp"))),
       ("/work/myapp", Entry.dir),
       ("/work", Entry.dir)] =
      some (Entry.file (Content.json (JVal.obj
        [("name", JVal.str (basename "/work/myapp")),
         ("version", JVal.str "1.0.0"),
         ("main", JVal.str "index.js"),
         ("scripts", JVal.obj
            [("build", JVal.str "tsc"),
             ("start", JVal.str "node build/index.js"),
             ("build:start", JVal.str "npm run build && npm run start")]),
         ("devDependencies", JVal.obj [("typescript", JVal.str "latest")]),
         ("_moduleAliases", JVal.obj [("@", JVal.str "build")])]))) ∧
    (Tscinit.main ["myapp"] "/work"
      [("/work/myapp/src/module.ts", Entry.file (Content.text moduleBody)),
       ("/work/myapp/src/index.ts", Entry.file (Content.text indexBody)),
       ("/work/myapp/src", Entry.dir),
       ("/work/myapp/tsconfig.json", Entry.file (Content.json tsconfigData)),
       ("/work/myapp/package.json",
         Entry.file (Content.json (packageData "/work/myapp"))),
       ("/work/myapp", Entry.dir),
       ("/work", Entry.dir)]).1 =
      Except.ok
        ((cfgPath "/work/myapp", Entry.file (Content.json tsconfigData)) ::
          (pkgPath "/work/myapp",
            Entry.file (Content.json (packageData "/work/myapp"))) ::
          [("/work/myapp/src/module.ts", Entry.file (Content.text moduleBody)),
           ("/work/myapp/src/index.ts", Entry.file (Content.text indexBody)),
           ("/work/myapp/src", Entry.dir),
           ("/work/myapp/tsconfig.json", Entry.file (Content.json tsconfigData)),
           ("/work/myapp/package.json",
             Entry.file (Content.json (packageData "/work/myapp"))),
           ("/work/myapp", Entry.dir),
           ("/work", Entry.dir)]) :=
  ⟨(claim_C2 ["myapp"] "/work" [("/work", Entry.dir)] _ rfl (by rfl)).1,
   (claim_C2 ["myapp"] "/work" [("/work", Entry.dir)] _ rfl (by rfl)).2.2.1⟩

/-- C3: a successful run never rewrites `src/index.ts` or `src/module.ts`
when they already exist as regular files (content preserved exactly), and
the two presence checks are independent: whichever of the two is absent is
created with its fixed body regardless of the other. -/
theorem claim_C3 (args : List String) (cwd : String) (fs fs' : FS)
    {t : String} (ht : t = resolveTarget args cwd)
    (h : (Tscinit.main args cwd fs).1 = Except.ok fs') :
    (isfile fs (idxPath t) = true →
      List.lookup (idxPath t) fs' = List.lookup (idxPath t) fs) ∧
    (isfile fs (modPath t) = true →
      List.lookup (modPath t) fs' = List.lookup (modPath t) fs) ∧
    (isfile fs (idxPath t) = false →
      List.lookup (idxPath t) fs' =
        some (Entry.file (Content.text indexBody))) ∧
    (isfile fs (modPath t) = false →
      List.lookup (modPath t) fs' =
        some (Entry.file (Content.text moduleBody))) := by
  obtain ⟨-, -, h3, h4, h5, h6, -, -, -, -, -⟩ := main_ok_state ht h
  exact ⟨h3, h5, h4, h6⟩

theorem claim_C3_witness :
    List.lookup (idxPath "/w/app")
      [("/w/app/src/module.ts", Entry.file (Content.text moduleBody)),
       ("/w/app/tsconfig.json", Entry.file (Content.json tsconfigData)),
       ("/w/app/package.json", Entry.file (Content.json (packageData "/w/app"))),
       ("/w/app/src/index.ts", Entry.file (Content.text "custom")),
       ("/w/app/src", Entry.dir), ("/w/app", Entry.dir), ("/w", Entry.dir)] =
      List.lookup (idxPath "/w/app")
        [("/w/app/src/index.ts", Entry.file (Content.text "custom")),
         ("/w/app/src", Entry.dir), ("/w/app", Entry.dir),
         ("/w", Entry.dir)] ∧
    List.lookup (modPath "/w/app")
      [("/w/app/src/module.ts", Entry.file (Content.text moduleBody)),
       ("/w/app/tsconfig.json", Entry.file (Content.json tsconfigData)),
       ("/w/app/package.json", Entry.file (Content.json (packageData "/w/app"))),
       ("/w/app/src/index.ts", Entry.file (Content.text "custom")),
       ("/w/app/src", Entry.dir), ("/w/app", Entry.dir), ("/w", Entry.dir)] =
      some (Entry.file (Content.text moduleBody)) :=
  ⟨(claim_C3 ["/w/app"] "/w"
      [("/w/app/src/index.ts", Entry.file (Content.text "custom")),
       ("/w/app/src", Entry.dir), ("/w/app", Entry.dir), ("/w", Entry.dir)]
      _ rfl (by rfl)).1 (by rfl),
   (claim_C3 ["/w/app"] "/w"
      [("/w/app/src/index.ts", Entry.file (Content.text "custom")),
       ("/w/app/src", Entry.dir), ("/w/app", Entry.dir), ("/w", Entry.dir)]
      _ rfl (by rfl)).2.2.2 (by rfl)⟩

end Claims

section ClaimsResolution

/-- C4: path resolution: an absolute first argument is used verbatim, a
relative first argument is joined onto the current working directory
(appending it after a single separator), and with no argument the target
is the working directory itself. -/
theorem claim_C4 :
    (∀ (a : String) (r : List String) (cwd : String),
      resolveTarget (a :: r) cwd = if isabs a then a else join2 cwd a) ∧
    (∀ cwd : String, resolveTarget [] cwd = cwd) ∧
    (∀ (a : String) (r : List String) (cwd : String), isabs a = false →
      resolveTarget (a :: r) cwd = joinPrefix cwd ++ a) := by
  refine ⟨fun _ _ _ => rfl, fun _ => rfl, fun a r cwd ha => ?_⟩
  show (if isabs a then a else join2 cwd a) = _
  rw [if_neg (by rw [ha]; exact Bool.false_ne_true), join2_rel cwd ha]

theorem claim_C4_witness :
    resolveTarget ["/abs/p"] "/cwd" = "/abs/p" ∧
    resolveTarget [] "/cwd" = "/cwd" ∧
    resolveTarget ["rel"] "/cwd" = joinPrefix "/cwd" ++ "rel" :=
  ⟨(claim_C4.1 "/abs/p" [] "/cwd").trans (by rfl),
   claim_C4.2.1 "/cwd",
   claim_C4.2.2 "rel" [] "/cwd" (by rfl)⟩

/-- C5: end-to-end run with argument `"myapp"` in an empty working
directory `/work`: it succeeds, creates `myapp/`, `myapp/src/`,
`myapp/package.json`, `myapp/tsconfig.json`, `myapp/src/index.ts` and
`myapp/src/module.ts`; the manifest is a JSON document whose `name` is
`"myapp"`, and `src/index.ts` carries the literal entry-source text of
spec section 6. -/
theorem claim_C5 :
    Tscinit.main ["myapp"] "/work" [("/work", Entry.dir)] =
      (Except.ok
        [("/work/myapp/src/module.ts", Entry.file (Content.text moduleBody)),
         ("/work/myapp/src/index.ts", Entry.file (Content.text indexBody)),
         ("/work/myapp/src", Entry.dir),
         ("/work/myapp/tsconfig.json", Entry.file (Content.json tsconfigData)),
         ("/work/myapp/package.json",
           Entry.file (Content.json (packageData "/work/myapp"))),
         ("/work/myapp", Entry.dir),
         ("/work", Entry.dir)],
       headerLine "/work/myapp" :: reportLines "/work/myapp") ∧
    pexists
      [("/work/myapp/src/module.ts", Entry.file (Content.text moduleBody)),
       ("/work/myapp/src/index.ts", Entry.file (Content.text indexBody)),
       ("/work/myapp/src", Entry.dir),
       ("/work/myapp/tsconfig.json", Entry.file (Content.json tsconfigData)),
       ("/work/myapp/package.json",
         Entry.file (Content.json (packageData "/work/myapp"))),
       ("/work/myapp", Entry.dir),
       ("/work", Entry.dir)] "/work/myapp" = true ∧
    pexists
      [("/work/myapp/src/module.ts", Entry.file (Content.text moduleBody)),
       ("/work/myapp/src/index.ts", Entry.file (Content.text indexBody)),
       ("/work/myapp/src", Entry.dir),
       ("/work/myapp/tsconfig.json", Entry.file (Content.json tsconfigData)),
       ("/work/myapp/package.json",
         Entry.file (Content.json (packageData "/work/myapp"))),
       ("/work/myapp", Entry.dir),
       ("/work", Entry.dir)] "/work/myapp/src" = true ∧
    List.lookup "/work/myapp/package.json"
      [("/work/myapp/src/module.ts", Entry.file (Content.text moduleBody)),
       ("/work/myapp/src/index.ts", Entry.file (Content.text indexBody)),
       ("/work/myapp/src", Entry.dir),
       ("/work/myapp/tsconfig.json", Entry.file (Content.json tsconfigData)),
       ("/work/myapp/package.json",
         Entry.file (Content.json (packageData "/work/myapp"))),
       ("/work/myapp", Entry.dir),
       ("/work", Entry.dir)] =
      some (Entry.file (Content.json (JVal.obj
        [("name", JVal.str "myapp"),
         ("version", JVal.str "1.0.0"),
         ("main", JVal.str "index.js"),
         ("scripts", JVal.obj
            [("build", JVal.str "tsc"),
             ("start", JVal.str "node build/index.js"),
             ("build:start", JVal.str "npm run build && npm run start")]),
         ("devDependencies", JVal.obj [("typescript", JVal.str "latest")]),
         ("_moduleAliases", JVal.obj [("@", JVal.str "build")])]))) ∧
    (List.lookup "/work/myapp/tsconfig.json"
      [("/work/myapp/src/module.ts", Entry.file (Content.text moduleBody)),
       ("/work/myapp/src/index.ts", Entry.file (Content.text indexBody)),
       ("/work/myapp/src", Entry.dir),
       ("/work/myapp/tsconfig.json", Entry.file (Content.json tsconfigData)),
       ("/work/myapp/package.json",
         Entry.file (Content.json (packageData "/work/myapp"))),
       ("/work/myapp", Entry.dir),
       ("/work", Entry.dir)]).isSome = true ∧
    List.lookup "/work/myapp/src/index.ts"
      [("/work/myapp/src/module.ts", Entry.file (Content.text moduleBody)),
       ("/work/myapp/src/index.ts", Entry.file (Content.text indexBody)),
       ("/work/myapp/src", Entry.dir),
       ("/work/myapp/tsconfig.json", Entry.file (Content.json tsconfigData)),
       ("/work/myapp/package.json",
         Entry.file (Content.json (packageData "/work/myapp"))),
       ("/work/myapp", Entry.dir),
       ("/work", Entry.dir)] =
      some (Entry.file (Content.text
        "import \x7b hello \x7d from \"./module\";\n\nhello();\n")) ∧
    (List.lookup "/work/myapp/src/module.ts"
      [("/work/myapp/src/module.ts", Entry.file (Content.text moduleBody)),
       ("/work/myapp/src/index.ts", Entry.file (Content.text indexBody)),
       ("/work/myapp/src", Entry.dir),
       ("/work/myapp/tsconfig.json", Entry.file (Content.json tsconfigData)),
       ("/work/myapp/package.json",
         Entry.file (Content.json (packageData "/work/myapp"))),
       ("/work/myapp", Entry.dir),
       ("/work", Entry.dir)]).isSome = true :=
  ⟨rfl, rfl, rfl, rfl, rfl, rfl, rfl⟩

/-- C6: after every successful run, `<target>/tsconfig.json` holds exactly
the compiler-configuration field set of spec section 6. -/
theorem claim_C6 (args : List String) (cwd : String) (fs fs' : FS)
    {t : String} (ht : t = resolveTarget args cwd)
    (h : (Tscinit.main args cwd fs).1 = Except.ok fs') :
    List.lookup (cfgPath t) fs' =
      some (Entry.file (Content.json (JVal.obj
        [("compilerOptions", JVal.obj
            [("target", JVal.str "ES2020"),
             ("module", JVal.str "commonjs"),
             ("outDir", JVal.str "./build"),
             ("rootDir", JVal.str "./src"),
             ("strict", JVal.bool true),
             ("esModuleInterop", JVal.bool true),
             ("skipLibCheck", JVal.bool true),
             ("forceConsistentCasingInFileNames", JVal.bool true),
             ("baseUrl", JVal.str "."),
             ("paths", JVal.obj
                [("@/*", JVal.arr [JVal.str "src/*"]),
                 ("!/*", JVal.arr [JVal.str "./*"])])]),
         ("include", JVal.arr [JVal.str "src/**/*.ts"]),
         ("exclude", JVal.arr [JVal.str "node_modules"])]))) :=
  (main_ok_state ht h).2.1

theorem claim_C6_witness :
    List.lookup (cfgPath "/work/myapp")
      [("/work/myapp/src/module.ts", Entry.file (Content.text moduleBody)),
       ("/work/myapp/src/index.ts", Entry.file (Content.text indexBody)),
       ("/work/myapp/src", Entry.dir),
       ("/work/myapp/tsconfig.json", Entry.file (Content.json tsconfigData)),
       ("/work/myapp/package.json",
         Entry.file (Content.json (packageData "/work/myapp"))),
       ("/work/myapp", Entry.dir),
       ("/work", Entry.dir)] =
      some (Entry.file (Content.json tsconfigData)) :=
  claim_C6 ["myapp"] "/work" [("/work", Entry.dir)] _ rfl (by rfl)

/-- C7: when `<target>/src/index.ts` is absent before a successful run,
the run writes it with exactly the fixed two-line body importing the
sibling module and invoking `hello()`; independently, when
`<target>/src/module.ts` is absent, the run writes it with exactly the
fixed exported `hello` function printing the greeting. -/
theorem claim_C7 (args : List String) (cwd : String) (fs fs' : FS)
    {t : String} (ht : t = resolveTarget args cwd)
    (h : (Tscinit.main args cwd fs).1 = Except.ok fs') :
    (List.lookup (idxPath t) fs = none →
      List.lookup (idxPath t) fs' =
        some (Entry.file (Content.text
          "import \x7b hello \x7d from \"./module\";\n\nhello();\n"))) ∧
    (List.lookup (modPath t) fs = none →
      List.lookup (modPath t) fs' =
        some (Entry.file (Content.text
          "export function hello() \x7b\n  console.log(\"Hello from a separate module!\");\n\x7d\n"))) := by
  obtain ⟨-, -, -, h4, -, h6, -, -, -, -, -⟩ := main_ok_state ht h
  constructor
  · intro hnone
    exact h4 (by simp [isfile, hnone])
  · intro hnone
    exact h6 (by simp [isfile, hnone])

theorem claim_C7_witness :
    List.lookup (idxPath "/work/myapp")
      [("/work/myapp/src/module.ts", Entry.file (Content.text moduleBody)),
       ("/work/myapp/src/index.ts", Entry.file (Content.text indexBody)),
       ("/work/myapp/src", Entry.dir),
       ("/work/myapp/tsconfig.json", Entry.file (Content.json tsconfigData)),
       ("/work/myapp/package.json",
         Entry.file (Content.json (packageData "/work/myapp"))),
       ("/work/myapp", Entry.dir),
       ("/work", Entry.dir)] =
      some (Entry.file (Content.text
        "import \x7b hello \x7d from \"./module\";\n\nhello();\n")) ∧
    List.lookup (modPath "/work/myapp")
      [("/work/myapp/src/module.ts", Entry.file (Content.text moduleBody)),
       ("/work/myapp/src/index.ts", Entry.file (Content.text indexBody)),
       ("/work/myapp/src", Entry.dir),
       ("/work/myapp/tsconfig.json", Entry.file (Content.json tsconfigData)),
       ("/work/myapp/package.json",
         Entry.file (Content.json (packageData "/work/myapp"))),
       ("/work/myapp", Entry.dir),
       ("/work", Entry.dir)] =
      some (Entry.file (Content.text
        "export function hello() \x7b\n  console.log(\"Hello from a separate module!\");\n\x7d\n")) :=
  ⟨(claim_C7 ["myapp"] "/work" [("/work", Entry.dir)] _ rfl (by rfl)).1 (by rfl),
   (claim_C7 ["myapp"] "/work" [("/work", Entry.dir)] _ rfl (by rfl)).2 (by rfl)⟩

end ClaimsResolution

section ClaimsErrors

/-- C8: no filesystem error is caught anywhere: a failure of the
directory-creation step, the manifest write, the configuration write or
the starter-source step makes the whole run return that very error
immediately (with only the output printed so far), and when the starter
step fails the two configuration files written before it are still present
in the error-state filesystem — no rollback, no atomicity. -/
theorem claim_C8 (args : List String) (cwd : String) (fs : FS)
    {t : String} (ht : t = resolveTarget args cwd) :
    (∀ f : FS,
      (if pexists fs t then Except.ok fs else makedirs fs t) =
        Except.error f →
      Tscinit.main args cwd fs = (Except.error f, [])) ∧
    (∀ fs1 f : FS,
      (if pexists fs t then Except.ok fs else makedirs fs t) =
        Except.ok fs1 →
      generate_package_json fs1 t = Except.error f →
      Tscinit.main args cwd fs = (Except.error f, [headerLine t])) ∧
    (∀ fs1 fs2 f : FS,
      (if pexists fs t then Except.ok fs else makedirs fs t) =
        Except.ok fs1 →
      generate_package_json fs1 t = Except.ok fs2 →
      generate_tsconfig_json fs2 t = Except.error f →
      Tscinit.main args cwd fs = (Except.error f, [headerLine t])) ∧
    (∀ fs1 fs2 fs3 f : FS,
      (if pexists fs t then Except.ok fs else makedirs fs t) =
        Except.ok fs1 →
      generate_package_json fs1 t = Except.ok fs2 →
      generate_tsconfig_json fs2 t = Except.ok fs3 →
      ensure_src_index_ts fs3 t = Except.error f →
      Tscinit.main args cwd fs = (Except.error f, [headerLine t]) ∧
      List.lookup (pkgPath t) f =
        some (Entry.file (Content.json (packageData t))) ∧
      List.lookup (cfgPath t) f =
        some (Entry.file (Content.json tsconfigData))) := by
  refine ⟨fun f h1 => main_err_mkdir ht h1,
    fun fs1 f h1 h2 => main_err_pkg ht h1 h2,
    fun fs1 fs2 f h1 h2 h3 => main_err_cfg ht h1 h2 h3,
    fun fs1 fs2 fs3 f h1 h2 h3 h4 => ?_⟩
  rw [gen_pkg_eq] at h2
  obtain ⟨-, -, hfs2⟩ := writeFile_ok_elim h2
  rw [gen_cfg_eq] at h3
  obtain ⟨-, -, hfs3⟩ := writeFile_ok_elim h3
  have eS : (srcPath t).length = (joinPrefix t).length + 3 := by
    rw [srcPath_eq, str_length_append]; rfl
  have eP : (pkgPath t).length = (joinPrefix t).length + 12 := by
    rw [pkgPath_eq, str_length_append]; rfl
  have eC : (cfgPath t).length = (joinPrefix t).length + 13 := by
    rw [cfgPath_eq, str_length_append]; rfl
  have hLSP : (srcPath t).length < (pkgPath t).length := by omega
  have hLSC : (srcPath t).length < (cfgPath t).length := by omega
  refine ⟨main_err_ensure ht h1 (by rw [gen_pkg_eq, h2]) (by rw [gen_cfg_eq, h3]) h4, ?_, ?_⟩
  · rw [ensure_err_lookup h4 _ (pkg_ne_idx t) hLSP, hfs3,
      lookup_cons_ne (Ne.symm (pkg_ne_cfg t)), hfs2, lookup_cons_self]
  · rw [ensure_err_lookup h4 _ (cfg_ne_idx t) hLSC, hfs3, lookup_cons_self]

theorem claim_C8_witness :
    Tscinit.main ["/w/app"] "/w"
      [("/w/app/src", Entry.file (Content.text "oops")),
       ("/w/app", Entry.dir), ("/w", Entry.dir)] =
      (Except.error
        [("/w/app/tsconfig.json", Entry.file (Content.json tsconfigData)),
         ("/w/app/package.json",
           Entry.file (Content.json (packageData "/w/app"))),
         ("/w/app/src", Entry.file (Content.text "oops")),
         ("/w/app", Entry.dir), ("/w", Entry.dir)],
       [headerLine "/w/app"]) ∧
    List.lookup (pkgPath "/w/app")
      [("/w/app/tsconfig.json", Entry.file (Content.json tsconfigData)),
       ("/w/app/package.json",
         Entry.file (Content.json (packageData "/w/app"))),
       ("/w/app/src", Entry.file (Content.text "oops")),
       ("/w/app", Entry.dir), ("/w", Entry.dir)] =
      some (Entry.file (Content.json (packageData "/w/app"))) ∧
    List.lookup (cfgPath "/w/app")
      [("/w/app/tsconfig.json", Entry.file (Content.json tsconfigData)),
       ("/w/app/package.json",
         Entry.file (Content.json (packageData "/w/app"))),
       ("/w/app/src", Entry.file (Content.text "oops")),
       ("/w/app", Entry.dir), ("/w", Entry.dir)] =
      some (Entry.file (Content.json tsconfigData)) :=
  (claim_C8 ["/w/app"] "/w"
      [("/w/app/src", Entry.file (Content.text "oops")),
       ("/w/app", Entry.dir), ("/w", Entry.dir)] rfl).2.2.2
    [("/w/app/src", Entry.file (Content.text "oops")),
     ("/w/app", Entry.dir), ("/w", Entry.dir)]
    (("/w/app/package.json",
        Entry.file (Content.json (packageData "/w/app"))) ::
      [("/w/app/src", Entry.file (Content.text "oops")),
       ("/w/app", Entry.dir), ("/w", Entry.dir)])
    (("/w/app/tsconfig.json", Entry.file (Content.json tsconfigData)) ::
      ("/w/app/package.json",
        Entry.file (Content.json (packageData "/w/app"))) ::
      [("/w/app/src", Entry.file (Content.text "oops")),
       ("/w/app", Entry.dir), ("/w", Entry.dir)])
    [("/w/app/tsconfig.json", Entry.file (Content.json tsconfigData)),
     ("/w/app/package.json",
       Entry.file (Content.json (packageData "/w/app"))),
     ("/w/app/src", Entry.file (Content.text "oops")),
     ("/w/app", Entry.dir), ("/w", Entry.dir)]
    (by rfl) (by rfl) (by rfl) (by rfl)

/-- C9: when `<target>/src` is occupied by a regular file at the start of
a run (over an existing target directory), the run still overwrites
`package.json` and `tsconfig.json`, then fails while opening
`src/index.ts` for writing, because the source-subdirectory guard only
tests existence; the two configuration files remain written and the
occupying file and the entry path are untouched. -/
theorem claim_C9 (args : List String) (cwd : String) (fs : FS) (c : Content)
    {t : String} (ht : t = resolveTarget args cwd)
    (hpt : pexists fs t = true)
    (hd : isDirFS fs (dirname (pkgPath t)) = true)
    (hp : isDirFS fs (pkgPath t) = false)
    (hc : isDirFS fs (cfgPath t) = false)
    (hs : List.lookup (srcPath t) fs = some (Entry.file c))
    (hi : isfile fs (idxPath t) = false) :
    Tscinit.main args cwd fs =
      (Except.error ((cfgPath t, Entry.file (Content.json tsconfigData)) ::
        (pkgPath t, Entry.file (Content.json (packageData t))) :: fs),
       [headerLine t]) ∧
    List.lookup (pkgPath t)
        ((cfgPath t, Entry.file (Content.json tsconfigData)) ::
          (pkgPath t, Entry.file (Content.json (packageData t))) :: fs) =
      some (Entry.file (Content.json (packageData t))) ∧
    List.lookup (cfgPath t)
        ((cfgPath t, Entry.file (Content.json tsconfigData)) ::
          (pkgPath t, Entry.file (Content.json (packageData t))) :: fs) =
      some (Entry.file (Content.json tsconfigData)) ∧
    List.lookup (srcPath t)
        ((cfgPath t, Entry.file (Content.json tsconfigData)) ::
          (pkgPath t, Entry.file (Content.json (packageData t))) :: fs) =
      some (Entry.file c) ∧
    List.lookup (idxPath t)
        ((cfgPath t, Entry.file (Content.json tsconfigData)) ::
          (pkgPath t, Entry.file (Content.json (packageData t))) :: fs) =
      List.lookup (idxPath t) fs := by
  have s2 : generate_package_json fs t =
      Except.ok ((pkgPath t, Entry.file (Content.json (packageData t))) :: fs) := by
    rw [gen_pkg_eq]
    exact writeFile_ok_intro _ hd hp
  have h8' : isDirFS ((pkgPath t, Entry.file (Content.json (packageData t))) :: fs)
      (dirname (cfgPath t)) = true := by
    rw [dirname_cfgPath, ← dirname_pkgPath,
      isDirFS_cons_ne (Ne.symm (dP_ne_pkg t))]
    exact hd
  have hNC : isDirFS ((pkgPath t, Entry.file (Content.json (packageData t))) :: fs)
      (cfgPath t) = false := by
    rw [isDirFS_cons_ne (pkg_ne_cfg t)]
    exact hc
  have s3 : generate_tsconfig_json
      ((pkgPath t, Entry.file (Content.json (packageData t))) :: fs) t =
      Except.ok ((cfgPath t, Entry.file (Content.json tsconfigData)) ::
        (pkgPath t, Entry.file (Content.json (packageData t))) :: fs) := by
    rw [gen_cfg_eq]
    exact writeFile_ok_intro _ h8' hNC
  have hS' : List.lookup (srcPath t)
      ((cfgPath t, Entry.file (Content.json tsconfigData)) ::
        (pkgPath t, Entry.file (Content.json (packageData t))) :: fs) =
      some (Entry.file c) := by
    rw [lookup_cons_ne (cfg_ne_src t), lookup_cons_ne (pkg_ne_src t)]
    exact hs
  have hI' : isfile ((cfgPath t, Entry.file (Content.json tsconfigData)) ::
      (pkgPath t, Entry.file (Content.json (packageData t))) :: fs)
      (idxPath t) = false := by
    rw [isfile_cons_ne (cfg_ne_idx t), isfile_cons_ne (pkg_ne_idx t)]
    exact hi
  have s4 := ensure_err_src_file hS' hI'
  refine ⟨main_err_ensure ht (by rw [if_pos hpt]) s2 s3 s4, ?_, ?_, hS', ?_⟩
  · rw [lookup_cons_ne (Ne.symm (pkg_ne_cfg t)), lookup_cons_self]
  · rw [lookup_cons_self]
  · rw [lookup_cons_ne (cfg_ne_idx t), lookup_cons_ne (pkg_ne_idx t)]

theorem claim_C9_witness :
    Tscinit.main ["/w/app"] "/w"
      [("/w/app/src", Entry.file (Content.text "oops")),
       ("/w/app", Entry.dir), ("/w", Entry.dir)] =
      (Except.error
        [("/w/app/tsconfig.json", Entry.file (Content.json tsconfigData)),
         ("/w/app/package.json",
           Entry.file (Content.json (packageData "/w/app"))),
         ("/w/app/src", Entry.file (Content.text "oops")),
         ("/w/app", Entry.dir), ("/w", Entry.dir)],
       [headerLine "/w/app"]) ∧
    List.lookup (pkgPath "/w/app")
      [("/w/app/tsconfig.json", Entry.file (Content.json tsconfigData)),
       ("/w/app/package.json",
         Entry.file (Content.json (packageData "/w/app"))),
       ("/w/app/src", Entry.file (Content.text "oops")),
       ("/w/app", Entry.dir), ("/w", Entry.dir)] =
      some (Entry.file (Content.json (packageData "/w/app"))) ∧
    List.lookup (cfgPath "/w/app")
      [("/w/app/tsconfig.json", Entry.file (Content.json tsconfigData)),
       ("/w/app/package.json",
         Entry.file (Content.json (packageData "/w/app"))),
       ("/w/app/src", Entry.file (Content.text "oops")),
       ("/w/app", Entry.dir), ("/w", Entry.dir)] =
      some (Entry.file (Content.json tsconfigData)) ∧
    List.lookup (srcPath "/w/app")
      [("/w/app/tsconfig.json", Entry.file (Content.json tsconfigData)),
       ("/w/app/package.json",
         Entry.file (Content.json (packageData "/w/app"))),
       ("/w/app/src", Entry.file (Content.text "oops")),
       ("/w/app", Entry.dir), ("/w", Entry.dir)] =
      some (Entry.file (Content.text "oops")) ∧
    List.lookup (idxPath "/w/app")
      [("/w/app/tsconfig.json", Entry.file (Content.json tsconfigData)),
       ("/w/app/package.json",
         Entry.file (Content.json (packageData "/w/app"))),
       ("/w/app/src", Entry.file (Content.text "oops")),
       ("/w/app", Entry.dir), ("/w", Entry.dir)] =
      List.lookup (idxPath "/w/app")
        [("/w/app/src", Entry.file (Content.text "oops")),
         ("/w/app", Entry.dir), ("/w", Entry.dir)] :=
  claim_C9 ["/w/app"] "/w"
    [("/w/app/src", Entry.file (Content.text "oops")),
     ("/w/app", Entry.dir), ("/w", Entry.dir)]
    (Content.text "oops") rfl (by rfl) (by rfl) (by rfl) (by rfl) (by rfl)
    (by rfl)

/-- C10: only the first positional argument influences behaviour: two
invocations agreeing on the first argument, the working directory and the
starting filesystem produce identical outcomes and identical printed
output whatever additional arguments are passed — extra arguments are
silently ignored. -/
theorem claim_C10 (a : String) (r1 r2 : List String) (cwd : String)
    (fs : FS) :
    Tscinit.main (a :: r1) cwd fs = Tscinit.main (a :: r2) cwd fs := rfl

end ClaimsErrors
